import Mathlib

/-!
Verification of the Business Law AI Tutor backend (Flask + Firestore).

The Python sources are embedded shallowly:
* Python strings become `Str` (`List Char`); helpers `pyStrip`, `pySplit`,
  `pyTitle`, `pyLower`, `pyContains` model the `str` methods used by the code.
* The Firestore document tree `users/{uid}/chats/{cid}/{messages,bookmarks}`
  becomes an association list of `ChatNode`s.  A chat *document* and its
  subcollections are modelled separately (`docExists` flag), because Firestore
  keeps subcollections alive when a document is deleted — which is exactly why
  `delete_chat` loops over the subcollections by hand.
* Route handlers become pure functions `Store → inputs → Store × result`,
  with HTTP status codes carried explicitly where a claim mentions them.
-/

/-- A Python string, as the list of its characters. -/
abbrev Str := List Char

/-- Python `str.isspace` on the ASCII whitespace characters
(`str.split()`/`str.strip()` split on these). -/
def pyIsSpace (c : Char) : Bool :=
  c = ' ' || c = '\t' || c = '\n' || c = '\r' || c = '\x0B' || c = '\x0C'

/-- Python `s.strip()`: remove leading and trailing whitespace. -/
def pyStrip (s : Str) : Str :=
  ((s.dropWhile pyIsSpace).reverse.dropWhile pyIsSpace).reverse

/-- Accumulator loop behind `pySplit`; `acc` holds the current token reversed. -/
def pySplitAux : Str → Str → List Str
  | [], acc => if acc = [] then [] else [acc.reverse]
  | c :: rest, acc =>
    if pyIsSpace c then
      if acc = [] then pySplitAux rest [] else acc.reverse :: pySplitAux rest []
    else
      pySplitAux rest (c :: acc)

/-- Python `s.split()` (no argument): split on runs of whitespace,
never producing empty tokens. -/
def pySplit (s : Str) : List Str := pySplitAux s []

/-- Python `s.lower()` (ASCII). -/
def pyLower (s : Str) : Str := s.map Char.toLower

/-- Loop behind `pyTitle`: `prevAlpha` records whether the previous character
was alphabetic (cased). -/
def pyTitleAux : Str → Bool → Str
  | [], _ => []
  | c :: rest, prevAlpha =>
    (if c.isAlpha then (if prevAlpha then c.toLower else c.toUpper) else c)
      :: pyTitleAux rest c.isAlpha

/-- Python `s.title()` (ASCII): uppercase every letter that follows a
non-letter, lowercase the rest. -/
def pyTitle (s : Str) : Str := pyTitleAux s false

/-- Python `sep.join(parts)`. -/
def pyJoin (sep : Str) : List Str → Str
  | [] => []
  | [p] => p
  | p :: rest => p ++ sep ++ pyJoin sep rest

/-- Does `s` start with `pat`?  (Python slice comparison.) -/
def pyStartsWith : Str → Str → Bool
  | [], _ => true
  | _ :: _, [] => false
  | a :: pat, b :: s => a = b && pyStartsWith pat s

/-- Python `pat in s`: substring containment. -/
def pyContains (pat : Str) : Str → Bool
  | [] => pyStartsWith pat []
  | c :: rest => pyStartsWith pat (c :: rest) || pyContains pat rest






/-!
## Data model (`firebase_config.py`)

The Firestore tree `users/{uid}/chats/{chatId}` with subcollections
`messages` and `bookmarks`.  List order of `messages` is ascending server
timestamp (the order `get_chat_history_by_chat` streams them in); `.add`
appends at the end.
-/

/-- A document of a `messages` subcollection, with the fields the code reads
and writes (`save_chat_message`, `update_chat_message`,
`update_message_bookmark_in_chat`). -/
structure Message where
  id : String
  message : Str
  sender : String
  chapter : Str
  bookmarked : Bool
  editedAt : Option Str := none
  updatedAt : Option Str := none
  ragContext : Option Str := none
  fileContext : Option Str := none
  debugContext : Option Str := none
  replacesMessageId : Option String := none
  deriving Repr, DecidableEq

/-- A document of a `bookmarks` subcollection (`save_bookmark`). -/
structure Bookmark where
  id : String
  linkedMessageId : String
  snippet : Str
  btype : String
  chatId : String
  deriving Repr, DecidableEq

/-- The stored copy of a message document: the payload under the fresh
Firestore id `.add` minted. -/
def Message.withId (m : Message) (i : String) : Message := { m with id := i }

/-- The stored copy of a bookmark document: the payload under its fresh id,
with the chat id it is stored under. -/
def Bookmark.withIds (b : Bookmark) (i cid : String) : Bookmark :=
  { b with id := i, chatId := cid }

/-- One chat id's slice of the store: the chat *document* (`docExists`,
`chatName`) and its two subcollections.  Firestore keeps subcollections when
the document is deleted, hence the separate flag. -/
structure ChatNode where
  docExists : Bool
  chatName : Str
  messages : List Message
  bookmarks : List Bookmark
  deriving Repr, DecidableEq

/-- The slice of a chat id nothing has ever written to. -/
def ChatNode.phantom : ChatNode :=
  { docExists := false, chatName := [], messages := [], bookmarks := [] }

/-- One user's document store: chat ids with their nodes (unique keys). -/
abbrev Store := List (String × ChatNode)

/-- Look a chat id up in the store. -/
def lookupChat : Store → String → Option ChatNode
  | [], _ => none
  | (k, v) :: rest, cid => if k = cid then some v else lookupChat rest cid

/-- Replace (or create) the node of a chat id. -/
def setChat : Store → String → ChatNode → Store
  | [], cid, node => [(cid, node)]
  | (k, v) :: rest, cid, node =>
    if k = cid then (cid, node) :: rest else (k, v) :: setChat rest cid node

/-- The node of a chat id, phantom if never written. -/
def getNode (s : Store) (chatId : String) : ChatNode :=
  (lookupChat s chatId).getD ChatNode.phantom

/-- `get_chats_collection(u).document(c).get().exists`. -/
def chat_doc_exists (s : Store) (chatId : String) : Bool :=
  (getNode s chatId).docExists

/-- `get_chat_history_by_chat`: stream the chat's `messages` subcollection in
ascending timestamp order. -/
def get_chat_history_by_chat (s : Store) (chatId : String) : List Message :=
  (getNode s chatId).messages

/-- `get_chat_bookmarks`: stream the chat's `bookmarks` subcollection.  (The
source orders by `createdAt` descending; the claims proved below only use
membership and first-match under unique ids, so the model keeps store order.) -/
def get_chat_bookmarks (s : Store) (chatId : String) : List Bookmark :=
  (getNode s chatId).bookmarks

/-- `get_user_chats`: stream the `chats` collection — only ids whose chat
*document* exists. -/
def get_user_chats (s : Store) : List (String × ChatNode) :=
  s.filter (fun p => p.2.docExists)

/-- `save_chat_message`: requires a chat id, then `.add`s the message with a
fresh document id (appended = latest server timestamp).  Firestore `.add` into
a subcollection succeeds even when the chat document does not exist. -/
def save_chat_message (s : Store) (chatId : String) (freshId : String)
    (m : Message) : Store × Option String :=
  if chatId = "" then (s, none)
  else
    let node := getNode s chatId
    (setChat s chatId { node with messages := node.messages ++ [m.withId freshId] },
     some freshId)

/-- `update_chat_name`: Firestore `update()` raises when the chat document is
absent, which the source catches and turns into `False`. -/
def update_chat_name (s : Store) (chatId : String) (newName : Str) :
    Store × Bool :=
  let node := getNode s chatId
  if node.docExists then
    (setChat s chatId { node with chatName := newName }, true)
  else (s, false)

/-- Deletion events of `delete_chat`, in the order the source issues them. -/
inductive DelEvent where
  | bookmarkDoc (id : String)
  | messageDoc (id : String)
  | chatDoc (chatId : String)
  deriving Repr, DecidableEq

/-- `delete_chat`: returns `False` without touching anything when the chat
document is absent; otherwise deletes every bookmark, then every message, then
the chat document, re-reads the chat document, and reports success only if it
is gone.  The event list records each Firestore `delete()` in source order. -/
def delete_chat (s : Store) (chatId : String) : Store × Bool × List DelEvent :=
  let node := getNode s chatId
  if node.docExists then
    let events := node.bookmarks.map (fun b => DelEvent.bookmarkDoc b.id)
      ++ node.messages.map (fun m => DelEvent.messageDoc m.id)
      ++ [DelEvent.chatDoc chatId]
    let s' := setChat s chatId
      { docExists := false, chatName := [], messages := [], bookmarks := [] }
    if (getNode s' chatId).docExists then (s', false, events)
    else (s', true, events)
  else (s, false, [])

/-- First chat (in `get_user_chats` order) whose `messages` subcollection has a
document with the given id. -/
def findChatWithMessage : List (String × ChatNode) → String → Option String
  | [], _ => none
  | (cid, node) :: rest, mid =>
    if node.messages.any (fun m => m.id = mid) then some cid
    else findChatWithMessage rest mid

/-- `update_message_bookmark`: search every chat for the message, update the
`bookmarked` flag of the first hit; `False` when no chat has the message. -/
def update_message_bookmark (s : Store) (messageId : String) (bookmarked : Bool)
    (now : Str) : Store × Bool :=
  match findChatWithMessage (get_user_chats s) messageId with
  | none => (s, false)
  | some cid =>
    let node := getNode s cid
    (setChat s cid { node with messages := node.messages.map (fun m =>
        if m.id = messageId then { m with bookmarked := bookmarked, updatedAt := some now }
        else m) },
     true)

/-- `save_bookmark`: requires `chatId` in the payload and an *existing* chat
document; otherwise stores nothing and returns `None`.  On success `.add`s the
bookmark under the chat with a fresh id. -/
def save_bookmark (s : Store) (chatId : String) (freshId : String)
    (b : Bookmark) : Store × Option String :=
  if chatId = "" then (s, none)
  else
    let node := getNode s chatId
    if node.docExists then
      (setChat s chatId
        { node with bookmarks := node.bookmarks ++ [b.withIds freshId chatId] },
       some freshId)
    else (s, none)

/-- First chat (in `get_user_chats` order) whose `bookmarks` subcollection has
a document with the given id. -/
def findChatWithBookmark : List (String × ChatNode) → String → Option String
  | [], _ => none
  | (cid, node) :: rest, bid =>
    if node.bookmarks.any (fun b => b.id = bid) then some cid
    else findChatWithBookmark rest bid

/-- Remove the bookmark document with the given id from a chat. -/
def removeBookmark (s : Store) (chatId bookmarkId : String) : Store :=
  let node := getNode s chatId
  let remaining := node.bookmarks.filter (fun b => b.id ≠ bookmarkId)
  setChat s chatId { node with bookmarks := remaining }

/-- `delete_bookmark`: when no `chat_id` is supplied, scan all chats for the
bookmark (`False` if absent anywhere); then delete the document.  A supplied
`chat_id` skips the scan (Firestore `delete()` is idempotent, so it reports
`True` either way). -/
def delete_bookmark (s : Store) (bookmarkId : String) (chatId : Option String) :
    Store × Bool :=
  match chatId with
  | some cid => (removeBookmark s cid bookmarkId, true)
  | none =>
    match findChatWithBookmark (get_user_chats s) bookmarkId with
    | none => (s, false)
    | some cid => (removeBookmark s cid bookmarkId, true)

/-- `get_bookmarks`: concatenate every chat's bookmarks (source sorts by
timestamp, irrelevant to the membership facts used below). -/
def get_bookmarks (s : Store) : List Bookmark :=
  (get_user_chats s).flatMap (fun p => p.2.bookmarks)

/-- The field update `/chat/edit-regenerate` writes to the edited user
message: new content, edit timestamps, the three legacy context fields
cleared.  Everything else — in particular the document id — is untouched. -/
def editedUserMessage (m : Message) (newContent now : Str) : Message :=
  { m with message := newContent, editedAt := some now, updatedAt := some now,
           ragContext := none, fileContext := none, debugContext := none }

/-- `update_chat_message` as called by `/chat/edit-regenerate`: overwrite the
content, stamp `editedAt`/`updatedAt`, clear the three legacy context fields;
`False` when the message document is absent. -/
def update_chat_message (s : Store) (chatId messageId : String)
    (newContent : Str) (now : Str) : Store × Bool :=
  let node := getNode s chatId
  if node.messages.any (fun m => m.id = messageId) then
    (setChat s chatId { node with messages := node.messages.map (fun m =>
        if m.id = messageId then editedUserMessage m newContent now else m) },
     true)
  else (s, false)

/-- Outcome of the scan in `delete_followup_assistant_message`. -/
inductive FollowupScan where
  | userNotFound
  | noAssistant
  | assistant (id : String)
  deriving Repr, DecidableEq

/-- The scan of `delete_followup_assistant_message`: find the first message
with the given id and sender `user`; report the id of the next message iff it
is a `tutor` message. -/
def find_followup : List Message → String → FollowupScan
  | [], _ => .userNotFound
  | m :: rest, uid =>
    if m.id = uid ∧ m.sender = "user" then
      match rest with
      | m2 :: _ => if m2.sender = "tutor" then .assistant m2.id else .noAssistant
      | [] => .noAssistant
    else find_followup rest uid

/-- `delete_followup_assistant_message`: `False` when the user message is not
in the chat; `True` (nothing deleted) when no tutor message follows it;
otherwise delete exactly that tutor message. -/
def delete_followup_assistant_message (s : Store) (chatId userMessageId : String) :
    Store × Bool :=
  match find_followup (get_chat_history_by_chat s chatId) userMessageId with
  | .userNotFound => (s, false)
  | .noAssistant => (s, true)
  | .assistant aid =>
    let node := getNode s chatId
    let remaining := node.messages.filter (fun m => m.id ≠ aid)
    (setChat s chatId { node with messages := remaining }, true)

/-- `get_demo_user_id` (`firebase_config.py`). -/
def get_demo_user_id : String := "demoUser"

/-!
## Chat routes (`routes/chat_routes.py`)

Flask request state enters as explicit parameters: the session dictionary
`session['chapter_context']` (`SessionCtx`, `none` when the key is absent),
`g.latest_pdf_content`, and the Gemini call as an oracle
`gen : Str → Option Str` (`none` = upstream failure).  Firestore document ids
minted by `.add` enter as `fresh…` parameters.
-/

/-- One entry of the request's `attachedFiles` list. -/
structure AttachedFile where
  name : Str
  ftype : String
  deriving Repr, DecidableEq

/-- `session['chapter_context']` — `none` when the key is missing; otherwise
the dict as (name, content) pairs in insertion order. -/
abbrev SessionCtx := Option (List (Str × Str))

/-- Python dict lookup (first match; dict keys are unique). -/
def sessLookup : List (Str × Str) → Str → Option Str
  | [], _ => none
  | (k, v) :: rest, key => if k = key then some v else sessLookup rest key

/-- `file_reference_keywords` in the `/chat` handler. -/
def file_reference_keywords : List Str :=
  ["pdf", "document", "file", "uploaded", "attached", "content", "text",
   "syllabus"].map String.toList

/-- `chapter_reference_keywords` in the `/chat` handler. -/
def chapter_reference_keywords : List Str :=
  ["chapter", "section", "topic"].map String.toList

/-- The `file_context` block: empty when no files are attached, otherwise the
delimited ATTACHED-FILES section with one FILE block per attached file found
in the session. -/
def build_file_context (attached : List AttachedFile) (ctx : List (Str × Str)) :
    Str :=
  if attached.isEmpty then []
  else
    "\n\n=== ATTACHED FILES CONTENT ===\n".toList
      ++ (attached.flatMap fun f =>
            match sessLookup ctx f.name with
            | some content =>
              "\n📄 FILE: ".toList ++ f.name ++ "\nCONTENT:\n".toList
                ++ content ++ "\nEND OF FILE\n".toList
            | none => [])
      ++ "\n=== END OF ATTACHED FILES ===\n".toList

/-- `any(keyword in user_message_lower for keyword in …)`. -/
def has_keyword (keywords : List Str) (msgLower : Str) : Bool :=
  keywords.any (fun k => pyContains k msgLower)

/-- The `global_context` string: the PDF CONTEXT block (only when files are
attached or the message references files) followed by the CHAPTER blocks
(only when the message references chapters and the session has the
`chapter_context` key). -/
def build_global_context (attached : List AttachedFile) (msgLower : Str)
    (sess : SessionCtx) (latest_pdf : Option Str) : Str :=
  let pdfPart :=
    if !attached.isEmpty || has_keyword file_reference_keywords msgLower then
      match latest_pdf with
      | some content =>
        if content.isEmpty then []
        else
          "\n\n=== PDF CONTEXT ===\n".toList ++ content.take 4000
            ++ "\n=== END OF PDF CONTEXT ===\n".toList
      | none => []
    else []
  let chapterPart :=
    if has_keyword chapter_reference_keywords msgLower then
      match sess with
      | some ctx =>
        ctx.flatMap fun p =>
          if pyContains (pyLower p.1) msgLower then
            "\n\n=== CHAPTER: ".toList ++ p.1 ++ " ===\n".toList
              ++ p.2.take 4000
              ++ "\n=== END OF CHAPTER: ".toList ++ p.1 ++ " ===\n".toList
          else []
      | none => []
    else []
  pdfPart ++ chapterPart

/-- The augmented prompt (`full_user_prompt` in the `/chat` handler): the user
message, plus the file context when non-empty, plus the global context when
non-empty. -/
def full_user_prompt (user_message : Str) (attached : List AttachedFile)
    (sess : SessionCtx) (latest_pdf : Option Str) : Str :=
  let fileCtx := build_file_context attached (sess.getD [])
  let globalCtx :=
    build_global_context attached (pyLower user_message) sess latest_pdf
  let p := user_message ++ fileCtx
  if globalCtx.isEmpty then p else p ++ "\n\n".toList ++ globalCtx

/-- The `User:`/`AI:` linearization in `get_ai_response`: keep the last 20
*messages* (`messages[-20:]`) and render one line per user/tutor message. -/
def conversation_lines (messages : List Message) : List Str :=
  let recent :=
    if messages.length > 20 then messages.drop (messages.length - 20)
    else messages
  recent.flatMap fun m =>
    if m.sender = "user" then ["User: ".toList ++ m.message]
    else if m.sender = "tutor" then ["AI: ".toList ++ m.message]
    else []

/-- The final prompt `get_ai_response` sends to the generation model: system
prompt, then the Previous-conversation block when there is history, then the
new user turn. -/
def get_ai_response_prompt (system_prompt user_message : Str)
    (history : List Message) : Str :=
  let lines := conversation_lines history
  let p := system_prompt ++ "\n\n".toList
  let p :=
    if lines.isEmpty then p
    else p ++ "Previous conversation:\n".toList
           ++ pyJoin "\n".toList lines ++ "\n\n".toList
  p ++ "User: ".toList ++ user_message ++ "\nAI:".toList

/-- `create_chat`: make a chat document with the given name under a fresh id
(store reachable; the unavailable-store branch returns `None` and is not
modelled because every claim below assumes a reachable store). -/
def create_chat (s : Store) (chatName : Str) (freshId : String) :
    Store × Option String :=
  (setChat s freshId
    { docExists := true, chatName := chatName, messages := [], bookmarks := [] },
   some freshId)

/-- The user-turn document the `/chat` handler saves (without attachments;
no claim below reads the enriched `fileAttachments` list). -/
def userMsgRecord (user_message chapter : Str) : Message :=
  { id := "", message := user_message, sender := "user", chapter := chapter,
    bookmarked := false }

/-- The tutor-turn document the `/chat` handler saves. -/
def tutorMsgRecord (ai_response chapter : Str) : Message :=
  { id := "", message := ai_response, sender := "tutor", chapter := chapter,
    bookmarked := false }

/-- The auto-rename candidate: first four whitespace-separated tokens of the
(stripped) user message, joined and title-cased —
`" ".join(user_message.strip().split()[:4]).title()`. -/
def derived_chat_name (user_message : Str) : Str :=
  pyTitle (pyJoin [' '] ((pySplit (pyStrip user_message)).take 4))

/-- The persistence tail of the `/chat` handler: save the user turn, save the
tutor turn, then auto-rename iff the chat now stores exactly 2 messages and
the derived name is non-empty.  Returns (store, chatRenamed, newChatName). -/
def chat_turn_persist (s : Store) (chatId : String)
    (user_message ai_response chapter : Str) (uid1 uid2 : String) :
    Store × Bool × Option Str :=
  let r1 := save_chat_message s chatId uid1 (userMsgRecord user_message chapter)
  let r2 := save_chat_message r1.1 chatId uid2 (tutorMsgRecord ai_response chapter)
  let chat_messages := get_chat_history_by_chat r2.1 chatId
  if chat_messages.length = 2 then
    let new_chat_name := derived_chat_name user_message
    if new_chat_name.isEmpty then (r2.1, false, some new_chat_name)
    else
      let r3 := update_chat_name r2.1 chatId new_chat_name
      (r3.1, r3.2, some new_chat_name)
  else (r2.1, false, none)

/-- Result of the `/chat` endpoint (the response fields the claims read). -/
structure ChatPostResult where
  store : Store
  status : Nat
  chatId : Option String
  reply : Option Str
  chatRenamed : Bool
  newChatName : Option Str
  deriving Repr

/-- The `/chat` endpoint.  `sys` is the output of `get_system_prompt`
(persona/template selection; opaque to every claim below), `gen` the Gemini
call, `freshChatId`/`uid1`/`uid2` the Firestore ids minted on this request. -/
def chat_post (s : Store) (raw_message raw_chapter : Str)
    (chatIdOpt : Option String) (attached : List AttachedFile)
    (sess : SessionCtx) (latest_pdf : Option Str) (sys : Str)
    (gen : Str → Option Str) (freshChatId uid1 uid2 : String) :
    ChatPostResult :=
  let user_message := pyStrip raw_message
  if user_message.isEmpty then
    { store := s, status := 400, chatId := none, reply := none,
      chatRenamed := false, newChatName := none }
  else
    let chapter := pyStrip raw_chapter
    let givenId := match chatIdOpt with
      | some c => if c = "" then none else some c
      | none => none
    let chat_id := givenId.getD freshChatId
    let s0 := match givenId with
      | some _ => s
      | none => (create_chat s "New Chat".toList freshChatId).1
    let fup := full_user_prompt user_message attached sess latest_pdf
    let prompt := get_ai_response_prompt sys fup (get_chat_history_by_chat s0 chat_id)
    match gen prompt with
    | none =>
      { store := s0, status := 500, chatId := none, reply := none,
        chatRenamed := false, newChatName := none }
    | some ai_response =>
      let r := chat_turn_persist s0 chat_id user_message ai_response chapter uid1 uid2
      { store := r.1, status := 200, chatId := some chat_id,
        reply := some ai_response, chatRenamed := r.2.1, newChatName := r.2.2 }

/-- The tutor-reply document `/chat/edit-regenerate` saves: chapter empty and
a `replacesMessageId` link to the edited user message. -/
def regenTutorRecord (reply : Str) (userMessageId : String) : Message :=
  { id := "", message := reply, sender := "tutor", chapter := [],
    bookmarked := false, replacesMessageId := some userMessageId }

/-- The `/chat/edit-regenerate` endpoint: validate, overwrite the user
message, delete the tutor message that follows it (failure only logged),
regenerate, save the new tutor message.  Returns (store, HTTP status). -/
def edit_regenerate (s : Store) (chatIdRaw : String) (userMessageId : String)
    (rawNewMessage : Str) (ai_response : Option Str) (now : Str)
    (freshAiId : String) : Store × Nat :=
  let new_message := pyStrip rawNewMessage
  if userMessageId = "" || new_message.isEmpty || chatIdRaw = "" then (s, 400)
  else
    let r1 := update_chat_message s chatIdRaw userMessageId new_message now
    if r1.2 = false then (s, 500)
    else
      let r2 := delete_followup_assistant_message r1.1 chatIdRaw userMessageId
      match ai_response with
      | none => (r2.1, 500)
      | some reply =>
        let r3 := save_chat_message r2.1 chatIdRaw freshAiId
          (regenTutorRecord reply userMessageId)
        (r3.1, 200)

/-- `get_user_id`, replicated verbatim in every route module: the `user_uid`
query parameter when present and truthy (non-empty), else the demo user. -/
def get_user_id (user_uid : Option String) : String :=
  match user_uid with
  | some uid => if uid = "" then get_demo_user_id else uid
  | none => get_demo_user_id

/-- The whole document database: each user id's store
(`users/{uid}/…`). -/
abbrev GlobalStore := List (String × Store)

/-- The store of one user (empty until first write, matching lazily-created
Firestore paths). -/
def userStore : GlobalStore → String → Store
  | [], _ => []
  | (k, v) :: rest, uid => if k = uid then v else userStore rest uid

/-- Overwrite one user's store. -/
def setUserStore : GlobalStore → String → Store → GlobalStore
  | [], uid, st => [(uid, st)]
  | (k, v) :: rest, uid, st =>
    if k = uid then (uid, st) :: rest else (k, v) :: setUserStore rest uid st

/-!
## Upload routes (`routes/upload_routes.py`)

OCR and the PDF text layer are external calls; their outputs enter the model
as fields of `PdfPage`/`PdfFile`.  File bytes are `List Nat`; the uploads
directory is an association list keyed by the on-disk name
`{uploadId}{extension}`.
-/

/-- One PDF page as the OCR oracles see it: `ocrDefault` is
`pytesseract.image_to_string(img, config='--psm 6')` on the 2x render
(extraction method 2); `ocrPsm n` is the same call on the 3x render with
`--psm n` (extraction method 3). -/
structure PdfPage where
  ocrDefault : Str
  ocrPsm : Nat → Str

/-- A PDF as the extraction pipeline sees it: `directText` is the result of
`extract_text_from_pdf` (`utils/pdf_utils.py`, already `.strip()`ed, empty on
failure), plus the page list for the OCR fallbacks. -/
structure PdfFile where
  directText : Str
  pages : List PdfPage

/-- Extraction method 2: OCR the first 10 pages at 2x zoom with `--psm 6`,
keeping each page's text when its strip is non-empty. -/
def ocr_tier1_pages (pages : List PdfPage) : Str :=
  (pages.take 10).foldl
    (fun acc p =>
      if (pyStrip p.ocrDefault).isEmpty then acc else acc ++ p.ocrDefault ++ ['\n'])
    []

/-- The per-page acceptance test of extraction method 3:
`page_text.strip() and len(page_text.strip()) > 20`. -/
def psmHit (t : Str) : Bool :=
  !(pyStrip t).isEmpty && decide ((pyStrip t).length > 20)

/-- Extraction method 3: OCR the first 5 pages at 3x zoom, trying `--psm 6`,
`3`, `1` in order and keeping the first output that passes `psmHit`. -/
def ocr_tier2_pages (pages : List PdfPage) : Str :=
  (pages.take 5).foldl
    (fun acc p =>
      match [6, 3, 1].findSome?
          (fun psm => let t := p.ocrPsm psm; if psmHit t then some t else none) with
      | some t => acc ++ t ++ ['\n']
      | none => acc)
    []

/-- The fixed placeholder stored when every extraction method fails. -/
def extraction_failed_placeholder (filename : Str) : Str :=
  "PDF file '".toList ++ filename
    ++ ("' uploaded but text extraction failed. The file may be encrypted, "
        ++ "corrupted, or contain only images without text.").toList

/-- `not extracted_text or len(extracted_text.strip()) < n`. -/
def below_threshold (t : Str) (n : Nat) : Bool :=
  t.isEmpty || decide ((pyStrip t).length < n)

/-- One OCR fallback tier of `upload_file`: when the text so far is below the
50-character threshold, run the tier's OCR and replace the text iff the OCR
output strips non-empty (`if ocr_text.strip(): extracted_text = ocr_text`). -/
def tier_step (t o : Str) : Str :=
  if below_threshold t 50 then (if (pyStrip o).isEmpty then t else o) else t

/-- The tiered PDF extraction of `upload_file`: direct text layer, then OCR
(method 2) when below the 50-character threshold, then alternate-psm OCR
(method 3) when still below it, then the placeholder when the final text
strips to under 10 characters. -/
def upload_pdf_extract (filename : Str) (pdf : PdfFile) : Str :=
  let t2 := tier_step pdf.directText (ocr_tier1_pages pdf.pages)
  let t3 := tier_step t2 (ocr_tier2_pages pdf.pages)
  if below_threshold t3 10 then extraction_failed_placeholder filename else t3

/-- `MAX_FILE_SIZE` (16 MB). -/
def MAX_FILE_SIZE : Nat := 16 * 1024 * 1024

/-- The response of `/upload` for a PDF (fields the claims read). -/
structure UploadResponse where
  status : Nat
  success : Bool
  extractedText : Str
  deriving Repr, DecidableEq

/-- `/upload` on a PDF file within the size limit succeeds with whatever the
tiered extraction produced; an oversized file is rejected with 413 before any
extraction. -/
def upload_pdf (filename : Str) (pdf : PdfFile) (fileSize : Nat) :
    UploadResponse :=
  if fileSize > MAX_FILE_SIZE then
    { status := 413, success := false, extractedText := [] }
  else
    { status := 200, success := true,
      extractedText := upload_pdf_extract filename pdf }

/-- `os.path.splitext(name)[1]` for a bare file name: the suffix starting at
the last dot, unless every character before that dot is a dot. -/
def splitext_ext (name : Str) : Str :=
  match name.reverse.findIdx? (fun c => c = '.') with
  | none => []
  | some k =>
    let pos := name.length - 1 - k
    if (name.take pos).any (fun c => c ≠ '.') then name.drop pos else []

/-- Metadata record of one upload (`save_upload` document). -/
structure UploadMeta where
  id : Str
  fileName : Str
  fileType : String
  deriving Repr, DecidableEq

/-- Upload state: the Firestore `uploads` collection plus the on-disk uploads
directory (path ↦ bytes). -/
structure FileStore where
  uploads : List UploadMeta
  disk : List (Str × List Nat)
  deriving Repr, DecidableEq

/-- Write a file at a path (overwrite if present). -/
def diskWrite : List (Str × List Nat) → Str → List Nat → List (Str × List Nat)
  | [], p, c => [(p, c)]
  | (q, v) :: rest, p, c =>
    if q = p then (p, c) :: rest else (q, v) :: diskWrite rest p c

/-- Read the file at a path. -/
def diskRead : List (Str × List Nat) → Str → Option (List Nat)
  | [], _ => none
  | (q, v) :: rest, p => if q = p then some v else diskRead rest p

/-- `save_file_to_disk`: write the bytes under `{uploadId}{extension}`. -/
def save_file_to_disk (fs : FileStore) (content : List Nat)
    (filename uploadId : Str) : FileStore :=
  { fs with disk := diskWrite fs.disk (uploadId ++ splitext_ext filename) content }

/-- The successful-upload persistence step: `save_upload` of the metadata
record, then `save_file_to_disk` under the returned id. -/
def store_upload (fs : FileStore) (content : List Nat) (filename : Str)
    (ftype : String) (freshId : Str) : FileStore :=
  let fs1 := { fs with uploads :=
    fs.uploads ++ [{ id := freshId, fileName := filename, fileType := ftype }] }
  save_file_to_disk fs1 content filename freshId

/-- What `GET /files/{upload_id}` returns. -/
inductive ServeResult where
  | ok (content : List Nat) (mimeType : String) (downloadName : Str)
  | notFound (status : Nat)
  deriving Repr, DecidableEq

/-- `serve_file_by_id`: look the id up in the uploads metadata (404 when
absent), rebuild the on-disk name from the stored file name, read the blob
(404 when absent), else serve bytes + stored MIME type + stored name. -/
def serve_file_by_id (fs : FileStore) (uploadId : Str) : ServeResult :=
  match fs.uploads.find? (fun u => u.id = uploadId) with
  | none => .notFound 404
  | some info =>
    match diskRead fs.disk (uploadId ++ splitext_ext info.fileName) with
    | none => .notFound 404
    | some content => .ok content info.fileType info.fileName

/-- The `extractedText` field of the indexed metadata record:
`extracted_text[:1000] + "..." if len(extracted_text) > 1000 else
extracted_text`. -/
def upload_metadata_extractedText (extracted_text : Str) : Str :=
  if extracted_text.length > 1000 then extracted_text.take 1000 ++ "...".toList
  else extracted_text

/-- `store_file_content`: cache the full extracted text in the session under
the file name. -/
def store_file_content : List (Str × Str) → Str → Str → List (Str × Str)
  | [], filename, content => [(filename, content)]
  | (k, v) :: rest, filename, content =>
    if k = filename then (filename, content) :: rest
    else (k, v) :: store_file_content rest filename content

/-- The two places `upload_file` persists the extracted text: the session
cache (full text, only when non-empty) and the indexed metadata record
(truncated form). -/
def upload_persist_text (sess : List (Str × Str)) (filename extracted_text : Str) :
    List (Str × Str) × Str :=
  let sess' :=
    if extracted_text.isEmpty then sess
    else store_file_content sess filename extracted_text
  (sess', upload_metadata_extractedText extracted_text)

/-!
## Bookmark routes (`routes/bookmark_routes.py`)
-/

/-- The message a cross-chat scan finds first (search order of
`update_message_bookmark`). -/
def lookup_message : List (String × ChatNode) → String → Option Message
  | [], _ => none
  | (_, node) :: rest, mid =>
    match node.messages.find? (fun m => m.id = mid) with
    | some m => some m
    | none => lookup_message rest mid

/-- The `bookmarked` flag of the message as the routes see it. -/
def message_bookmarked_flag (s : Store) (mid : String) : Option Bool :=
  (lookup_message (get_user_chats s) mid).map (fun m => m.bookmarked)

/-- `POST /bookmarks`: validate the four payload fields, `save_bookmark`
(500 on `None`), then flip the linked message's flag.  Returns
(store, HTTP status). -/
def create_bookmark (s : Store) (linkedMessageId : String) (snippet : Str)
    (btype : String) (chatId : String) (freshId : String) (now : Str) :
    Store × Nat :=
  if linkedMessageId = "" then (s, 400)
  else if (pyStrip snippet).isEmpty then (s, 400)
  else if chatId = "" then (s, 400)
  else if btype ≠ "user" ∧ btype ≠ "tutor" then (s, 400)
  else
    let r := save_bookmark s chatId freshId
      { id := "", linkedMessageId := linkedMessageId, snippet := pyStrip snippet,
        btype := btype, chatId := chatId }
    match r.2 with
    | some _ => ((update_message_bookmark r.1 linkedMessageId true now).1, 200)
    | none => (s, 500)

/-- `DELETE /bookmarks/{id}`: remember the bookmark's linked message, delete
the bookmark (scanning all chats), then flip the linked message's flag off.
Returns (store, HTTP status). -/
def delete_bookmark_endpoint (s : Store) (bookmarkId : String) (now : Str) :
    Store × Nat :=
  let toDelete := (get_bookmarks s).find? (fun b => b.id = bookmarkId)
  let r := delete_bookmark s bookmarkId none
  if r.2 then
    match toDelete with
    | some b =>
      if b.linkedMessageId = "" then (r.1, 200)
      else ((update_message_bookmark r.1 b.linkedMessageId false now).1, 200)
    | none => (r.1, 200)
  else (s, 500)

/-!
## Spec-modelled comparison definitions

These two definitions follow the *spec's words* (not the source); they exist
only to be compared against the source-derived definitions above.
-/

/-- A turn in the spec's sense: "a user message plus its corresponding tutor
reply". -/
structure Turn where
  userMsg : Str
  tutorMsg : Str
  deriving Repr, DecidableEq

/-- The stored user message of a turn. -/
def userTurnMessage (content : Str) : Message :=
  { id := "", message := content, sender := "user", chapter := [],
    bookmarked := false }

/-- The stored tutor message of a turn. -/
def tutorTurnMessage (content : Str) : Message :=
  { id := "", message := content, sender := "tutor", chapter := [],
    bookmarked := false }

/-- A chat history consisting of complete turns, in timestamp order. -/
def turnsToMessages (ts : List Turn) : List Message :=
  ts.flatMap fun t => [userTurnMessage t.userMsg, tutorTurnMessage t.tutorMsg]

/-- Modelled from the spec: "Retrieve up to the last 20 prior turns of the
target chat (if any) and linearize them as alternating User:/AI: lines". -/
def spec_lines_last20_turns (ts : List Turn) : List Str :=
  let recent := if ts.length > 20 then ts.drop (ts.length - 20) else ts
  recent.flatMap fun t =>
    ["User: ".toList ++ t.userMsg, "AI: ".toList ++ t.tutorMsg]

/-- Modelled from the spec: "extracted text truncated to 1000 characters for
the indexed record". -/
def spec_truncated_1000 (t : Str) : Str := t.take 1000

/-!
## Base lemmas about the store
-/

theorem lookupChat_setChat_same (s : Store) (cid : String) (node : ChatNode) :
    lookupChat (setChat s cid node) cid = some node := by
  induction s with
  | nil => simp [setChat, lookupChat]
  | cons p rest ih =>
    obtain ⟨k, v⟩ := p
    by_cases h : k = cid
    · simp [setChat, h, lookupChat]
    · simp [setChat, h, lookupChat, ih]

theorem lookupChat_setChat_ne (s : Store) (cid cid' : String) (node : ChatNode)
    (h : cid' ≠ cid) :
    lookupChat (setChat s cid node) cid' = lookupChat s cid' := by
  induction s with
  | nil => simp [setChat, lookupChat, Ne.symm h]
  | cons p rest ih =>
    obtain ⟨k, v⟩ := p
    by_cases hk : k = cid
    · subst hk
      simp [setChat, lookupChat, Ne.symm h]
    · simp only [setChat, if_neg hk, lookupChat]
      by_cases hk' : k = cid'
      · simp [hk']
      · simp [hk', ih]

theorem getNode_setChat_same (s : Store) (cid : String) (node : ChatNode) :
    getNode (setChat s cid node) cid = node := by
  simp [getNode, lookupChat_setChat_same]

theorem getNode_setChat_ne (s : Store) (cid cid' : String) (node : ChatNode)
    (h : cid' ≠ cid) :
    getNode (setChat s cid node) cid' = getNode s cid' := by
  simp [getNode, lookupChat_setChat_ne _ _ _ _ h]

theorem userStore_setUserStore_same (g : GlobalStore) (uid : String) (st : Store) :
    userStore (setUserStore g uid st) uid = st := by
  induction g with
  | nil => simp [setUserStore, userStore]
  | cons p rest ih =>
    obtain ⟨k, v⟩ := p
    by_cases h : k = uid
    · simp [setUserStore, h, userStore]
    · simp [setUserStore, h, userStore, ih]

/-!
## Claim C10 — demo-user fallback
-/

/-- C10: in every route module, a missing or empty `user_uid` query parameter
resolves to the fixed shared identifier "demoUser", so two callers omitting
`user_uid` read and write the same per-user store. -/
theorem user_uid_fallback_demoUser :
    get_user_id none = "demoUser"
    ∧ get_user_id (some "") = "demoUser"
    ∧ (∀ g : GlobalStore,
        userStore g (get_user_id none) = userStore g (get_user_id (some "")))
    ∧ (∀ (g : GlobalStore) (st : Store),
        userStore (setUserStore g (get_user_id none) st)
          (get_user_id (some "")) = st) := by
  refine ⟨rfl, by simp [get_user_id, get_demo_user_id], fun g => ?_, fun g st => ?_⟩
  · simp [get_user_id, get_demo_user_id]
  · simp [get_user_id, get_demo_user_id, userStore_setUserStore_same]

/-!
## Claim C4 — no-trigger prompt is the raw message
-/

/-- C4: with no attached files and no trigger keyword in the lowercased
message, the augmented prompt handed to the generation call is exactly the
raw user message — no attached-file, PDF-context, or chapter block — whatever
document text the session or `g.latest_pdf_content` holds. -/
theorem no_context_prompt_is_raw_message (msg : Str) (sess : SessionCtx)
    (latest_pdf : Option Str)
    (h : ∀ k ∈ file_reference_keywords ++ chapter_reference_keywords,
         pyContains k (pyLower msg) = false) :
    full_user_prompt msg [] sess latest_pdf = msg := by
  have hf : has_keyword file_reference_keywords (pyLower msg) = false := by
    simp only [has_keyword, List.any_eq_false]
    intro k hk
    simp [h k (List.mem_append_left _ hk)]
  have hc : has_keyword chapter_reference_keywords (pyLower msg) = false := by
    simp only [has_keyword, List.any_eq_false]
    intro k hk
    simp [h k (List.mem_append_right _ hk)]
  simp [full_user_prompt, build_file_context, build_global_context, hf, hc]

/-- Witness for C4 at the spec's own example input. -/
theorem no_context_prompt_witness :
    full_user_prompt "What is consideration?".toList []
      (some [("stored notes".toList, "cached chapter text".toList)])
      (some "cached pdf extract".toList) = "What is consideration?".toList :=
  no_context_prompt_is_raw_message _ _ _ (by decide)

/-!
## Claim C9 — persisted extractedText (corrected: a "..." marker is appended)
-/

/-- C9 counterexample: for a 1001-character text the indexed record stores
the first 1000 characters *plus* "..." (1003 characters), not the plain
1000-character truncation the claim states. -/
theorem extractedText_truncation_counterexample :
    upload_metadata_extractedText (List.replicate 1001 'a')
      ≠ spec_truncated_1000 (List.replicate 1001 'a') := by
  intro h
  have hgt : (List.replicate 1001 'a').length > 1000 := by
    rw [List.length_replicate]; omega
  have hl : upload_metadata_extractedText (List.replicate 1001 'a')
      = (List.replicate 1001 'a').take 1000 ++ "...".toList := by
    rw [upload_metadata_extractedText, if_pos hgt]
  have h3 : ("...".toList).length = 3 := by decide
  have hlen := congrArg List.length h
  rw [hl, spec_truncated_1000, List.length_append, h3] at hlen
  omega

theorem sessLookup_store_file_content (sess : List (Str × Str)) (f c : Str) :
    sessLookup (store_file_content sess f c) f = some c := by
  induction sess with
  | nil => simp [store_file_content, sessLookup]
  | cons p rest ih =>
    obtain ⟨k, v⟩ := p
    by_cases hk : k = f
    · simp [store_file_content, hk, sessLookup]
    · simp [store_file_content, hk, sessLookup, ih]

/-- C9 (amended): the indexed metadata record stores the extracted text
unmodified when it has at most 1000 characters, and the first 1000 characters
with a three-character "..." marker appended (1003 characters total) when
longer; the full text is cached separately in the session. -/
theorem extractedText_persisted_form (sess : List (Str × Str))
    (filename t : Str) :
    (t.length ≤ 1000 → upload_metadata_extractedText t = t)
    ∧ (1000 < t.length →
        upload_metadata_extractedText t = t.take 1000 ++ "...".toList
        ∧ (upload_metadata_extractedText t).length = 1003)
    ∧ (t.isEmpty = false →
        sessLookup (upload_persist_text sess filename t).1 filename = some t)
    ∧ (upload_persist_text sess filename t).2 = upload_metadata_extractedText t := by
  refine ⟨fun hle => ?_, fun hgt => ⟨?_, ?_⟩, fun hne => ?_, rfl⟩
  · simp [upload_metadata_extractedText, Nat.not_lt.mpr hle]
  · simp [upload_metadata_extractedText, hgt]
  · simp [upload_metadata_extractedText, hgt]
    omega
  · simp [upload_persist_text, hne, sessLookup_store_file_content]

/-- Witness for C9 (amended) at a short text and a fresh session. -/
theorem extractedText_persisted_form_witness :
    upload_metadata_extractedText "law notes".toList = "law notes".toList
    ∧ sessLookup
        (upload_persist_text [] "notes.pdf".toList "law notes".toList).1
        "notes.pdf".toList = some "law notes".toList := by
  have h := extractedText_persisted_form [] "notes.pdf".toList "law notes".toList
  exact ⟨h.1 (by decide), h.2.2.1 (by decide)⟩

/-!
## Claim C7 — upload/serve round trip
-/

theorem find?_append_right {α : Type} (p : α → Bool) (l₁ l₂ : List α)
    (h : ∀ x ∈ l₁, p x = false) : (l₁ ++ l₂).find? p = l₂.find? p := by
  induction l₁ with
  | nil => simp
  | cons a rest ih =>
    simp only [List.cons_append, List.find?]
    rw [h a (List.mem_cons_self a rest)]
    exact ih (fun x hx => h x (List.mem_cons_of_mem a hx))

theorem diskRead_diskWrite_same (d : List (Str × List Nat)) (p : Str)
    (c : List Nat) : diskRead (diskWrite d p c) p = some c := by
  induction d with
  | nil => simp [diskWrite, diskRead]
  | cons q rest ih =>
    obtain ⟨q1, q2⟩ := q
    by_cases hq : q1 = p
    · simp [diskWrite, hq, diskRead]
    · simp [diskWrite, hq, diskRead, ih]

/-- C7: after a successful upload, `GET /files/{id}` serves the identical
bytes under the stored file name and MIME type; the request 404s when the
metadata record is missing, and 404s when the `{uploadId}{extension}` blob is
missing from disk. -/
theorem file_roundtrip (fs : FileStore) (content : List Nat) (filename : Str)
    (ftype : String) (freshId : Str)
    (hfresh : ∀ u ∈ fs.uploads, u.id ≠ freshId) :
    serve_file_by_id (store_upload fs content filename ftype freshId) freshId
      = ServeResult.ok content ftype filename
    ∧ (∀ (fs' : FileStore) (uid : Str),
        fs'.uploads.find? (fun u => u.id = uid) = none →
        serve_file_by_id fs' uid = ServeResult.notFound 404)
    ∧ (∀ (fs' : FileStore) (uid : Str) (info : UploadMeta),
        fs'.uploads.find? (fun u => u.id = uid) = some info →
        diskRead fs'.disk (uid ++ splitext_ext info.fileName) = none →
        serve_file_by_id fs' uid = ServeResult.notFound 404) := by
  refine ⟨?_, fun fs' uid h => ?_, fun fs' uid info h1 h2 => ?_⟩
  · have hnone : ∀ u ∈ fs.uploads, (fun u : UploadMeta => decide (u.id = freshId)) u = false := by
      intro u hu
      simp [hfresh u hu]
    simp only [store_upload, save_file_to_disk, serve_file_by_id]
    rw [find?_append_right _ _ _ hnone]
    simp [diskRead_diskWrite_same]
  · simp [serve_file_by_id, h]
  · simp [serve_file_by_id, h1, h2]

/-- Witness for C7 at a concrete two-byte file in an empty store. -/
theorem file_roundtrip_witness :
    serve_file_by_id
      (store_upload ⟨[], []⟩ [7, 8] "notes.pdf".toList "application/pdf"
        "u1".toList)
      "u1".toList = ServeResult.ok [7, 8] "application/pdf" "notes.pdf".toList :=
  (file_roundtrip ⟨[], []⟩ [7, 8] "notes.pdf".toList "application/pdf"
    "u1".toList (by simp)).1

/-!
## Claim C6 — tiered PDF extraction with placeholder fallback
-/

theorem below_threshold_mono (t : Str) (m n : Nat) (hmn : m ≤ n)
    (h : below_threshold t n = false) : below_threshold t m = false := by
  simp only [below_threshold, Bool.or_eq_false_iff, decide_eq_false_iff_not,
    Nat.not_lt] at h ⊢
  exact ⟨h.1, le_trans hmn h.2⟩

theorem tier_step_of_not_below (t o : Str)
    (h : below_threshold t 50 = false) : tier_step t o = t := by
  simp [tier_step, h]

theorem tier_step_strip_lt (t o : Str) (n : Nat)
    (ht : (pyStrip t).length < n) (ho : (pyStrip o).length < n) :
    (pyStrip (tier_step t o)).length < n := by
  unfold tier_step
  split
  · split
    · exact ht
    · exact ho
  · exact ht

/-- C6: PDF text extraction is tiered — the direct text layer is kept when it
clears the 50-character threshold; OCR (method 2) reads only the first 10
pages and its output is kept when it clears the threshold; the alternate-psm
pass (method 3) reads only the first 5 pages; and when every tier strips to
under 10 characters the stored text is the fixed placeholder naming the file,
while the upload itself still succeeds (HTTP 200). -/
theorem pdf_extraction_tiers (filename : Str) (pdf : PdfFile) (fileSize : Nat)
    (hsize : fileSize ≤ MAX_FILE_SIZE) :
    (below_threshold pdf.directText 50 = false →
       upload_pdf_extract filename pdf = pdf.directText)
    ∧ ocr_tier1_pages pdf.pages = ocr_tier1_pages (pdf.pages.take 10)
    ∧ ocr_tier2_pages pdf.pages = ocr_tier2_pages (pdf.pages.take 5)
    ∧ (below_threshold pdf.directText 50 = true →
        below_threshold (ocr_tier1_pages pdf.pages) 50 = false →
        upload_pdf_extract filename pdf = ocr_tier1_pages pdf.pages)
    ∧ ((pyStrip pdf.directText).length < 10 →
        (pyStrip (ocr_tier1_pages pdf.pages)).length < 10 →
        (pyStrip (ocr_tier2_pages pdf.pages)).length < 10 →
        (upload_pdf filename pdf fileSize).extractedText
          = extraction_failed_placeholder filename)
    ∧ (∃ pre suf, extraction_failed_placeholder filename
        = pre ++ filename ++ suf)
    ∧ (upload_pdf filename pdf fileSize).status = 200
    ∧ (upload_pdf filename pdf fileSize).success = true := by
  have hupload : upload_pdf filename pdf fileSize
      = { status := 200, success := true,
          extractedText := upload_pdf_extract filename pdf } := by
    simp [upload_pdf, Nat.not_lt.mpr hsize]
  refine ⟨fun h1 => ?_, ?_, ?_, fun h1 ho => ?_, fun d1 d2 d3 => ?_,
    ⟨"PDF file '".toList, _, rfl⟩, by rw [hupload], by rw [hupload]⟩
  · have h2 := tier_step_of_not_below pdf.directText (ocr_tier1_pages pdf.pages) h1
    have h10 : below_threshold pdf.directText 10 = false :=
      below_threshold_mono _ 10 50 (by omega) h1
    simp only [upload_pdf_extract, h2, tier_step_of_not_below _ _ h1, h10,
      Bool.false_eq_true, if_false]
  · simp [ocr_tier1_pages, List.take_take]
  · simp [ocr_tier2_pages, List.take_take]
  · have hne : (pyStrip (ocr_tier1_pages pdf.pages)).isEmpty = false := by
      simp only [below_threshold, Bool.or_eq_false_iff,
        decide_eq_false_iff_not, Nat.not_lt] at ho
      rcases ho with ⟨-, hlen⟩
      rw [List.isEmpty_eq_false_iff_exists_mem]
      have hpos : 0 < (pyStrip (ocr_tier1_pages pdf.pages)).length := by omega
      exact List.exists_mem_of_length_pos hpos
    have h2 : tier_step pdf.directText (ocr_tier1_pages pdf.pages)
        = ocr_tier1_pages pdf.pages := by
      simp [tier_step, h1, hne]
    have h10 : below_threshold (ocr_tier1_pages pdf.pages) 10 = false :=
      below_threshold_mono _ 10 50 (by omega) ho
    simp only [upload_pdf_extract, h2, tier_step_of_not_below _ _ ho, h10,
      Bool.false_eq_true, if_false]
  · rw [hupload]
    have l2 : (pyStrip (tier_step pdf.directText (ocr_tier1_pages pdf.pages))).length < 10 :=
      tier_step_strip_lt _ _ _ d1 d2
    have l3 : (pyStrip (tier_step (tier_step pdf.directText (ocr_tier1_pages pdf.pages))
        (ocr_tier2_pages pdf.pages))).length < 10 :=
      tier_step_strip_lt _ _ _ l2 d3
    have hb : below_threshold (tier_step (tier_step pdf.directText
        (ocr_tier1_pages pdf.pages)) (ocr_tier2_pages pdf.pages)) 10 = true := by
      simp only [below_threshold, Bool.or_eq_true, decide_eq_true_eq]
      exact Or.inr l3
    simp only [upload_pdf_extract, hb, if_true]

/-- Witness for C6 at an empty PDF: every tier fails and the placeholder is
stored while the upload succeeds. -/
theorem pdf_extraction_tiers_witness :
    (upload_pdf "scan.pdf".toList ⟨[], []⟩ 4).extractedText
      = extraction_failed_placeholder "scan.pdf".toList
    ∧ (upload_pdf "scan.pdf".toList ⟨[], []⟩ 4).status = 200 := by
  have h := pdf_extraction_tiers "scan.pdf".toList ⟨[], []⟩ 4 (by decide)
  exact ⟨h.2.2.2.2.1 (by decide) (by decide) (by decide), h.2.2.2.2.2.2.1⟩

/-!
## Claim C1 — cascade delete of a chat
-/

theorem delete_chat_of_exists (s : Store) (chatId : String)
    (hex : chat_doc_exists s chatId = true) :
    delete_chat s chatId =
      (setChat s chatId
        { docExists := false, chatName := [], messages := [], bookmarks := [] },
       true,
       (getNode s chatId).bookmarks.map (fun b => DelEvent.bookmarkDoc b.id)
         ++ (getNode s chatId).messages.map (fun m => DelEvent.messageDoc m.id)
         ++ [DelEvent.chatDoc chatId]) := by
  rw [chat_doc_exists] at hex
  simp [delete_chat, hex, getNode_setChat_same]

/-- C1: when the chat document exists, `delete_chat` issues one delete per
bookmark, then one per message, then the chat-document delete (in that
order), verifies the chat document is gone, and reports success, after which
that chat id's messages and bookmarks stream empty; when the chat does not
exist it reports failure and deletes nothing. -/
theorem delete_chat_cascade (s : Store) (chatId : String) :
    (chat_doc_exists s chatId = true →
      (delete_chat s chatId).2.1 = true
      ∧ get_chat_history_by_chat (delete_chat s chatId).1 chatId = []
      ∧ get_chat_bookmarks (delete_chat s chatId).1 chatId = []
      ∧ chat_doc_exists (delete_chat s chatId).1 chatId = false
      ∧ (∃ eb em, (delete_chat s chatId).2.2 = eb ++ em ++ [DelEvent.chatDoc chatId]
          ∧ (∀ e ∈ eb, ∃ b ∈ get_chat_bookmarks s chatId, e = DelEvent.bookmarkDoc b.id)
          ∧ (∀ b ∈ get_chat_bookmarks s chatId, DelEvent.bookmarkDoc b.id ∈ eb)
          ∧ (∀ e ∈ em, ∃ m ∈ get_chat_history_by_chat s chatId, e = DelEvent.messageDoc m.id)
          ∧ (∀ m ∈ get_chat_history_by_chat s chatId, DelEvent.messageDoc m.id ∈ em)))
    ∧ (chat_doc_exists s chatId = false →
        (delete_chat s chatId).2.1 = false ∧ (delete_chat s chatId).1 = s) := by
  constructor
  · intro hex
    rw [delete_chat_of_exists s chatId hex]
    refine ⟨rfl, ?_, ?_, ?_, ?_⟩
    · simp [get_chat_history_by_chat, getNode_setChat_same]
    · simp [get_chat_bookmarks, getNode_setChat_same]
    · simp [chat_doc_exists, getNode_setChat_same]
    · refine ⟨_, _, rfl, ?_, ?_, ?_, ?_⟩
      · intro e he
        rcases List.mem_map.mp he with ⟨b, hb, rfl⟩
        exact ⟨b, hb, rfl⟩
      · intro b hb
        exact List.mem_map_of_mem _ hb
      · intro e he
        rcases List.mem_map.mp he with ⟨m, hm, rfl⟩
        exact ⟨m, hm, rfl⟩
      · intro m hm
        exact List.mem_map_of_mem _ hm
  · intro hne
    rw [chat_doc_exists] at hne
    simp [delete_chat, hne]

/-- Sample bookmark shared by the concrete witnesses below. -/
def sampleBookmark : Bookmark :=
  { id := "b1", linkedMessageId := "m2", snippet := "binding".toList,
    btype := "tutor", chatId := "c1" }

/-- Sample user message shared by the concrete witnesses below. -/
def sampleUserMsg : Message :=
  { id := "m1", message := "what is a contract".toList, sender := "user",
    chapter := [], bookmarked := false }

/-- Sample tutor message shared by the concrete witnesses below. -/
def sampleTutorMsg : Message :=
  { id := "m2", message := "a binding agreement".toList, sender := "tutor",
    chapter := [], bookmarked := true }

/-- Sample store: one chat "c1" holding one full turn and one bookmark. -/
def sampleStore : Store :=
  [("c1",
    { docExists := true, chatName := "New Chat".toList,
      messages := [sampleUserMsg, sampleTutorMsg],
      bookmarks := [sampleBookmark] })]

/-- Witness for C1: deleting the sample chat succeeds and leaves no message
or bookmark of it retrievable. -/
theorem delete_chat_cascade_witness :
    (delete_chat sampleStore "c1").2.1 = true
    ∧ get_chat_history_by_chat (delete_chat sampleStore "c1").1 "c1" = []
    ∧ get_chat_bookmarks (delete_chat sampleStore "c1").1 "c1" = [] := by
  have h := (delete_chat_cascade sampleStore "c1").1 (by decide)
  exact ⟨h.1, h.2.1, h.2.2.1⟩

/-!
## Claim C2 — auto-rename fires exactly on the turn reaching 2 messages
-/


theorem setChat_setChat (s : Store) (cid : String) (n1 n2 : ChatNode) :
    setChat (setChat s cid n1) cid n2 = setChat s cid n2 := by
  induction s with
  | nil => simp [setChat]
  | cons p rest ih =>
    obtain ⟨k, v⟩ := p
    by_cases h : k = cid
    · simp [setChat, h]
    · simp [setChat, h, ih]

theorem save_chat_message_store (s : Store) (chatId freshId : String)
    (m : Message) (h : chatId ≠ "") :
    (save_chat_message s chatId freshId m).1
      = setChat s chatId
          (ChatNode.mk (getNode s chatId).docExists (getNode s chatId).chatName
            ((getNode s chatId).messages ++ [m.withId freshId])
            (getNode s chatId).bookmarks) := by
  simp [save_chat_message, h]

theorem two_saves_store (s : Store) (chatId uid1 uid2 : String)
    (m1 m2 : Message) (h : chatId ≠ "") :
    (save_chat_message
        (save_chat_message s chatId uid1 m1).1 chatId uid2 m2).1
      = setChat s chatId
          (ChatNode.mk (getNode s chatId).docExists (getNode s chatId).chatName
            ((getNode s chatId).messages ++ [m1.withId uid1] ++ [m2.withId uid2])
            (getNode s chatId).bookmarks) := by
  rw [save_chat_message_store _ _ _ _ h, save_chat_message_store _ _ _ _ h,
    getNode_setChat_same, setChat_setChat]

theorem chat_turn_persist_cases (s : Store) (chatId : String)
    (um ar ch : Str) (u1 u2 : String) (hcid : chatId ≠ "")
    (hdoc : (getNode s chatId).docExists = true) :
    chat_turn_persist s chatId um ar ch u1 u2
      = if (getNode s chatId).messages.length = 0 then
          (if (derived_chat_name um).isEmpty then
            (setChat s chatId
              (ChatNode.mk (getNode s chatId).docExists (getNode s chatId).chatName
                ((getNode s chatId).messages
                  ++ [(userMsgRecord um ch).withId u1]
                  ++ [(tutorMsgRecord ar ch).withId u2])
                (getNode s chatId).bookmarks),
             false, some (derived_chat_name um))
          else
            (setChat s chatId
              (ChatNode.mk (getNode s chatId).docExists (derived_chat_name um)
                ((getNode s chatId).messages
                  ++ [(userMsgRecord um ch).withId u1]
                  ++ [(tutorMsgRecord ar ch).withId u2])
                (getNode s chatId).bookmarks),
             true, some (derived_chat_name um)))
        else
          (setChat s chatId
            (ChatNode.mk (getNode s chatId).docExists (getNode s chatId).chatName
              ((getNode s chatId).messages
                ++ [(userMsgRecord um ch).withId u1]
                ++ [(tutorMsgRecord ar ch).withId u2])
              (getNode s chatId).bookmarks),
           false, none) := by
  have hstore := two_saves_store s chatId u1 u2
    (userMsgRecord um ch) (tutorMsgRecord ar ch) hcid
  have hiff : (((getNode s chatId).messages
      ++ [(userMsgRecord um ch).withId u1]
      ++ [(tutorMsgRecord ar ch).withId u2]).length = 2)
      ↔ ((getNode s chatId).messages.length = 0) := by
    simp only [List.length_append, List.length_cons, List.length_nil]
    omega
  simp only [chat_turn_persist, get_chat_history_by_chat, hstore,
    getNode_setChat_same, hiff, update_chat_name, hdoc, if_true,
    setChat_setChat]

theorem chat_turn_persist_spec (s : Store) (chatId : String)
    (um ar ch : Str) (u1 u2 : String)
    (hcid : chatId ≠ "")
    (hdoc : chat_doc_exists s chatId = true) :
    (get_chat_history_by_chat
        (chat_turn_persist s chatId um ar ch u1 u2).1 chatId).length
      = (get_chat_history_by_chat s chatId).length + 2
    ∧ chat_doc_exists (chat_turn_persist s chatId um ar ch u1 u2).1 chatId = true
    ∧ ((chat_turn_persist s chatId um ar ch u1 u2).2.1 = true
        ↔ ((get_chat_history_by_chat s chatId).length = 0
            ∧ derived_chat_name um ≠ []))
    ∧ ((chat_turn_persist s chatId um ar ch u1 u2).2.1 = true →
        (getNode (chat_turn_persist s chatId um ar ch u1 u2).1 chatId).chatName
          = derived_chat_name um)
    ∧ ((chat_turn_persist s chatId um ar ch u1 u2).2.1 = false →
        (getNode (chat_turn_persist s chatId um ar ch u1 u2).1 chatId).chatName
          = (getNode s chatId).chatName) := by
  rw [chat_doc_exists] at hdoc
  rw [chat_turn_persist_cases s chatId um ar ch u1 u2 hcid hdoc]
  by_cases hn : (getNode s chatId).messages.length = 0
  · by_cases hd : (derived_chat_name um).isEmpty
    · simp [hn, hd, get_chat_history_by_chat, getNode_setChat_same,
        chat_doc_exists, hdoc, List.isEmpty_iff.mp hd]
    · have hd' : derived_chat_name um ≠ [] := by
        simpa [List.isEmpty_iff] using hd
      simp [hn, hd, get_chat_history_by_chat, getNode_setChat_same,
        chat_doc_exists, hdoc, hd']
  · simp [hn, get_chat_history_by_chat, getNode_setChat_same,
      chat_doc_exists, hdoc]

theorem chat_post_existing_chat (s : Store) (raw_message raw_chapter : Str)
    (chatId : String) (attached : List AttachedFile) (sess : SessionCtx)
    (latest_pdf : Option Str) (sys : Str) (gen : Str → Option Str)
    (freshChatId uid1 uid2 : String) (reply : Str)
    (hmsg : (pyStrip raw_message).isEmpty = false)
    (hcid : chatId ≠ "")
    (hgen : ∀ p, gen p = some reply) :
    chat_post s raw_message raw_chapter (some chatId) attached sess latest_pdf
        sys gen freshChatId uid1 uid2
      = { store := (chat_turn_persist s chatId (pyStrip raw_message) reply
            (pyStrip raw_chapter) uid1 uid2).1,
          status := 200, chatId := some chatId, reply := some reply,
          chatRenamed := (chat_turn_persist s chatId (pyStrip raw_message) reply
            (pyStrip raw_chapter) uid1 uid2).2.1,
          newChatName := (chat_turn_persist s chatId (pyStrip raw_message) reply
            (pyStrip raw_chapter) uid1 uid2).2.2 } := by
  simp [chat_post, hmsg, hcid, hgen]

/-- C2: on a POST /chat against an existing chat, the stored message count
grows by exactly 2; the automatic rename fires exactly on the request after
which the count is exactly 2, with the new name the title-cased first four
tokens of the user's opening message (silently skipped were that name empty);
on a request after which the count exceeds 2 — in particular on every later
request against the same chat — no rename happens and the name is kept. -/
theorem auto_rename_exactly_on_second_message (s : Store)
    (raw_message raw_chapter : Str) (chatId : String)
    (attached : List AttachedFile) (sess : SessionCtx) (latest_pdf : Option Str)
    (sys : Str) (gen : Str → Option Str) (freshChatId uid1 uid2 : String)
    (reply : Str)
    (hmsg : (pyStrip raw_message).isEmpty = false)
    (hcid : chatId ≠ "")
    (hdoc : chat_doc_exists s chatId = true)
    (hgen : ∀ p, gen p = some reply) :
    (chat_post s raw_message raw_chapter (some chatId) attached sess latest_pdf
        sys gen freshChatId uid1 uid2).status = 200
    ∧ (get_chat_history_by_chat
        (chat_post s raw_message raw_chapter (some chatId) attached sess
          latest_pdf sys gen freshChatId uid1 uid2).store chatId).length
      = (get_chat_history_by_chat s chatId).length + 2
    ∧ ((chat_post s raw_message raw_chapter (some chatId) attached sess
          latest_pdf sys gen freshChatId uid1 uid2).chatRenamed = true
        ↔ ((get_chat_history_by_chat s chatId).length + 2 = 2
            ∧ derived_chat_name (pyStrip raw_message) ≠ []))
    ∧ ((chat_post s raw_message raw_chapter (some chatId) attached sess
          latest_pdf sys gen freshChatId uid1 uid2).chatRenamed = true →
        (getNode (chat_post s raw_message raw_chapter (some chatId) attached
          sess latest_pdf sys gen freshChatId uid1 uid2).store chatId).chatName
          = derived_chat_name (pyStrip raw_message))
    ∧ ((chat_post s raw_message raw_chapter (some chatId) attached sess
          latest_pdf sys gen freshChatId uid1 uid2).chatRenamed = false →
        (getNode (chat_post s raw_message raw_chapter (some chatId) attached
          sess latest_pdf sys gen freshChatId uid1 uid2).store chatId).chatName
          = (getNode s chatId).chatName)
    ∧ (∀ (raw2 : Str) (gen2 : Str → Option Str) (uid3 uid4 : String) (reply2 : Str),
        (pyStrip raw2).isEmpty = false →
        (∀ p, gen2 p = some reply2) →
        (chat_post
          (chat_post s raw_message raw_chapter (some chatId) attached sess
            latest_pdf sys gen freshChatId uid1 uid2).store
          raw2 raw_chapter (some chatId) attached sess latest_pdf sys gen2
          freshChatId uid3 uid4).chatRenamed = false) := by
  rw [chat_post_existing_chat s raw_message raw_chapter chatId attached sess
    latest_pdf sys gen freshChatId uid1 uid2 reply hmsg hcid hgen]
  have hspec := chat_turn_persist_spec s chatId (pyStrip raw_message) reply
    (pyStrip raw_chapter) uid1 uid2 hcid hdoc
  refine ⟨rfl, hspec.1, ?_, hspec.2.2.2.1, hspec.2.2.2.2, ?_⟩
  · rw [hspec.2.2.1]
    constructor
    · rintro ⟨h0, hne⟩
      exact ⟨by omega, hne⟩
    · rintro ⟨h0, hne⟩
      exact ⟨by omega, hne⟩
  · intro raw2 gen2 uid3 uid4 reply2 hmsg2 hgen2
    rw [chat_post_existing_chat _ raw2 raw_chapter chatId attached sess
      latest_pdf sys gen2 freshChatId uid3 uid4 reply2 hmsg2 hcid hgen2]
    have hspec2 := chat_turn_persist_spec
      (chat_turn_persist s chatId (pyStrip raw_message) reply
        (pyStrip raw_chapter) uid1 uid2).1 chatId (pyStrip raw2) reply2
      (pyStrip raw_chapter) uid3 uid4 hcid hspec.2.1
    rcases h2 : (chat_turn_persist
        (chat_turn_persist s chatId (pyStrip raw_message) reply
          (pyStrip raw_chapter) uid1 uid2).1 chatId (pyStrip raw2) reply2
        (pyStrip raw_chapter) uid3 uid4).2.1 with _ | _
    · rfl
    · exfalso
      have := (hspec2.2.2.1).mp h2
      rw [hspec.1] at this
      omega

/-- Store with one freshly created, still empty chat "c9". -/
def emptyChatStore : Store :=
  [("c9",
    { docExists := true, chatName := "New Chat".toList, messages := [],
      bookmarks := [] })]

/-- Witness for C2: the first exchange in a fresh chat renames it to the
title-cased first four words of the opening message. -/
theorem auto_rename_witness :
    (chat_post emptyChatStore "offer and acceptance rules explained".toList []
      (some "c9") [] none none [] (fun _ => some "An offer is a proposal.".toList)
      "" "m1" "m2").chatRenamed = true := by
  have h := auto_rename_exactly_on_second_message emptyChatStore
    "offer and acceptance rules explained".toList [] "c9" [] none none []
    (fun _ => some "An offer is a proposal.".toList) "" "m1" "m2"
    "An offer is a proposal.".toList (by decide) (by decide) (by decide)
    (fun p => rfl)
  exact h.2.2.1.mpr ⟨by decide, by decide⟩

/-!
## Claim C5 — history window (corrected: last 20 *messages*, i.e. 10 turns)
-/

theorem turnsToMessages_length (ts : List Turn) :
    (turnsToMessages ts).length = 2 * ts.length := by
  induction ts with
  | nil => simp [turnsToMessages]
  | cons t ts ih =>
    simp only [turnsToMessages] at *
    simp [ih]
    omega

theorem turnsToMessages_drop (ts : List Turn) (k : Nat) :
    (turnsToMessages ts).drop (2 * k) = turnsToMessages (ts.drop k) := by
  induction ts generalizing k with
  | nil => simp [turnsToMessages]
  | cons t ts ih =>
    cases k with
    | zero => simp
    | succ k =>
      simp only [turnsToMessages, List.flatMap_cons, List.drop_succ_cons]
      rw [show 2 * (k + 1) = 2 * k + 1 + 1 from by omega]
      simp only [List.cons_append, List.nil_append, List.drop_succ_cons]
      simpa [turnsToMessages] using ih k

theorem turnsToMessages_lines (ts : List Turn) :
    (turnsToMessages ts).flatMap (fun m =>
        if m.sender = "user" then ["User: ".toList ++ m.message]
        else if m.sender = "tutor" then ["AI: ".toList ++ m.message]
        else [])
      = ts.flatMap (fun t =>
          ["User: ".toList ++ t.userMsg, "AI: ".toList ++ t.tutorMsg]) := by
  induction ts with
  | nil => simp [turnsToMessages]
  | cons t ts ih =>
    simpa [turnsToMessages, userTurnMessage, tutorTurnMessage] using ih

/-- C5 counterexample: a chat of 11 complete turns (22 messages).  The spec's
"last 20 prior turns" keeps all 22 lines; the code's `messages[-20:]` keeps
only 20, dropping the oldest turn. -/
theorem history_window_counterexample :
    conversation_lines
        (turnsToMessages (List.replicate 11 ⟨"q".toList, "a".toList⟩))
      ≠ spec_lines_last20_turns (List.replicate 11 ⟨"q".toList, "a".toList⟩) := by
  decide

/-- C5 (amended): the assembler retrieves up to the last 20 prior *messages*
(10 full turns) of the chat, linearizes them as alternating User:/AI: lines
in timestamp-ascending order, and prepends them to the prompt before the new
user message. -/
theorem history_window_last20_messages (ts : List Turn) (sys um : Str) :
    conversation_lines (turnsToMessages ts)
      = (if ts.length > 10 then ts.drop (ts.length - 10) else ts).flatMap
          (fun t => ["User: ".toList ++ t.userMsg, "AI: ".toList ++ t.tutorMsg])
    ∧ (conversation_lines (turnsToMessages ts) ≠ [] →
        get_ai_response_prompt sys um (turnsToMessages ts)
          = sys ++ "\n\n".toList ++ "Previous conversation:\n".toList
            ++ pyJoin "\n".toList (conversation_lines (turnsToMessages ts))
            ++ "\n\n".toList ++ "User: ".toList ++ um ++ "\nAI:".toList) := by
  constructor
  · simp only [conversation_lines, turnsToMessages_length]
    by_cases h : ts.length > 10
    · have hgt : 2 * ts.length > 20 := by omega
      rw [if_pos hgt, if_pos h,
        show 2 * ts.length - 20 = 2 * (ts.length - 10) from by omega,
        turnsToMessages_drop, turnsToMessages_lines]
    · have hle : ¬(2 * ts.length > 20) := by omega
      rw [if_neg hle, if_neg h, turnsToMessages_lines]
  · intro hne
    have : (conversation_lines (turnsToMessages ts)).isEmpty = false := by
      simpa [List.isEmpty_iff] using hne
    simp [get_ai_response_prompt, this, List.append_assoc]

/-- Witness for C5 (amended) at a one-turn history. -/
theorem history_window_witness :
    get_ai_response_prompt "sys".toList "next question".toList
        (turnsToMessages [⟨"q1".toList, "a1".toList⟩])
      = "sys".toList ++ "\n\n".toList ++ "Previous conversation:\n".toList
        ++ pyJoin "\n".toList
            (conversation_lines (turnsToMessages [⟨"q1".toList, "a1".toList⟩]))
        ++ "\n\n".toList ++ "User: ".toList ++ "next question".toList
        ++ "\nAI:".toList :=
  (history_window_last20_messages [⟨"q1".toList, "a1".toList⟩] "sys".toList
    "next question".toList).2 (by decide)

/-!
## Claim C8 — edit-regenerate replaces exactly the follow-up tutor message
-/

theorem nodup_parts (pre post : List Message) (u t : Message)
    (h : ((pre ++ u :: t :: post).map Message.id).Nodup) :
    (∀ m ∈ pre, m.id ≠ u.id) ∧ (∀ m ∈ pre, m.id ≠ t.id) ∧ u.id ≠ t.id
      ∧ (∀ m ∈ post, m.id ≠ u.id) ∧ (∀ m ∈ post, m.id ≠ t.id) := by
  rw [List.map_append, List.map_cons, List.map_cons, List.nodup_append] at h
  obtain ⟨-, h2, h3⟩ := h
  rw [List.nodup_cons, List.mem_cons] at h2
  obtain ⟨hu, h2'⟩ := h2
  rw [List.nodup_cons] at h2'
  obtain ⟨htpost, -⟩ := h2'
  push_neg at hu
  refine ⟨?_, ?_, hu.1, ?_, ?_⟩
  · intro m hm heq
    exact h3 (List.mem_map_of_mem _ hm) (by simp [heq])
  · intro m hm heq
    exact h3 (List.mem_map_of_mem _ hm) (by simp [heq])
  · intro m hm heq
    exact hu.2 (heq ▸ List.mem_map_of_mem _ hm)
  · intro m hm heq
    exact htpost (heq ▸ List.mem_map_of_mem _ hm)

theorem map_update_of_not_mem (l : List Message) (uid : String)
    (f : Message → Message) (h : ∀ m ∈ l, m.id ≠ uid) :
    l.map (fun m => if m.id = uid then f m else m) = l := by
  induction l with
  | nil => rfl
  | cons a l ih =>
    simp only [List.map_cons]
    rw [if_neg (h a (List.mem_cons_self a l)),
      ih (fun m hm => h m (List.mem_cons_of_mem a hm))]

theorem find_followup_append_skip (pre rest : List Message) (uid : String)
    (h : ∀ m ∈ pre, m.id ≠ uid) :
    find_followup (pre ++ rest) uid = find_followup rest uid := by
  induction pre with
  | nil => rfl
  | cons a pre ih =>
    simp only [List.cons_append, find_followup]
    rw [if_neg]
    · exact ih (fun m hm => h m (List.mem_cons_of_mem a hm))
    · rintro ⟨heq, -⟩
      exact h a (List.mem_cons_self a pre) heq

theorem find_followup_cons_hit (u t : Message) (post : List Message)
    (uid : String) (hu : u.id = uid) (hus : u.sender = "user")
    (ht : t.sender = "tutor") :
    find_followup (u :: t :: post) uid = .assistant t.id := by
  simp [find_followup, hu, hus, ht]

theorem filter_ne_of_not_mem (l : List Message) (tid : String)
    (h : ∀ m ∈ l, m.id ≠ tid) : l.filter (fun m => m.id ≠ tid) = l := by
  rw [List.filter_eq_self]
  intro a ha
  simp [h a ha]

/-- C8: on a user message immediately followed (in timestamp order) by a
tutor message, `/chat/edit-regenerate` deletes exactly that tutor message and
saves exactly one new tutor message, so the chat's message list becomes
`pre ++ edited-user :: post ++ [new tutor]`: the total count is unchanged,
every other message is untouched, and the edited user message keeps its id,
changing only content and edit metadata. -/
theorem edit_regenerate_frame (s : Store) (chatId userMessageId : String)
    (raw reply now : Str) (freshAiId : String)
    (pre post : List Message) (u t : Message)
    (hcid : chatId ≠ "") (huid : userMessageId ≠ "")
    (hraw : (pyStrip raw).isEmpty = false)
    (hmsgs : get_chat_history_by_chat s chatId = pre ++ u :: t :: post)
    (hu : u.id = userMessageId) (husr : u.sender = "user")
    (ht : t.sender = "tutor")
    (hnodup : ((pre ++ u :: t :: post).map Message.id).Nodup) :
    (edit_regenerate s chatId userMessageId raw (some reply) now freshAiId).2 = 200
    ∧ get_chat_history_by_chat
        (edit_regenerate s chatId userMessageId raw (some reply) now freshAiId).1
        chatId
      = (pre ++ editedUserMessage u (pyStrip raw) now :: post)
          ++ [(regenTutorRecord reply userMessageId).withId freshAiId]
    ∧ (get_chat_history_by_chat
        (edit_regenerate s chatId userMessageId raw (some reply) now freshAiId).1
        chatId).length
      = (get_chat_history_by_chat s chatId).length
    ∧ (editedUserMessage u (pyStrip raw) now).id = u.id
    ∧ (editedUserMessage u (pyStrip raw) now).sender = u.sender := by
  obtain ⟨hpre_u, hpre_t, hut, hpost_u, hpost_t⟩ := nodup_parts pre post u t hnodup
  have hpre_uid : ∀ m ∈ pre, m.id ≠ userMessageId := fun m hm => hu ▸ hpre_u m hm
  have hpost_uid : ∀ m ∈ post, m.id ≠ userMessageId := fun m hm => hu ▸ hpost_u m hm
  have ht_uid : t.id ≠ userMessageId := fun h => hut (hu.trans h.symm)
  have hnode : (getNode s chatId).messages = pre ++ u :: t :: post := hmsgs
  -- step 1: the content update hits exactly u
  have hany : ((getNode s chatId).messages.any (fun m => m.id = userMessageId)) = true := by
    rw [hnode]
    exact List.any_eq_true.mpr ⟨u, by simp, by simp [hu]⟩
  have hmap : (getNode s chatId).messages.map (fun m =>
      if m.id = userMessageId then editedUserMessage m (pyStrip raw) now else m)
      = pre ++ editedUserMessage u (pyStrip raw) now :: t :: post := by
    rw [hnode, List.map_append, List.map_cons, List.map_cons,
      map_update_of_not_mem pre userMessageId _ hpre_uid,
      map_update_of_not_mem post userMessageId _ hpost_uid,
      if_pos hu, if_neg ht_uid]
  have hs1 : update_chat_message s chatId userMessageId (pyStrip raw) now
      = (setChat s chatId
          (ChatNode.mk (getNode s chatId).docExists (getNode s chatId).chatName
            (pre ++ editedUserMessage u (pyStrip raw) now :: t :: post)
            (getNode s chatId).bookmarks),
         true) := by
    simp only [update_chat_message, hany, if_true, hmap]
  -- step 2: the follow-up scan finds exactly t and deletes it
  have hff : find_followup (pre ++ editedUserMessage u (pyStrip raw) now :: t :: post)
      userMessageId = .assistant t.id := by
    rw [find_followup_append_skip _ _ _ hpre_uid]
    exact find_followup_cons_hit _ _ _ _ (by simp [editedUserMessage, hu])
      (by simp [editedUserMessage, husr]) ht
  have hfilter : (pre ++ editedUserMessage u (pyStrip raw) now :: t :: post).filter
      (fun m => m.id ≠ t.id) = pre ++ editedUserMessage u (pyStrip raw) now :: post := by
    have hp1 : (decide ((editedUserMessage u (pyStrip raw) now).id ≠ t.id)) = true := by
      simp [editedUserMessage, hut]
    have hp2 : (decide (t.id ≠ t.id)) = false := by simp
    rw [List.filter_append, filter_ne_of_not_mem pre t.id hpre_t,
      List.filter_cons, List.filter_cons, hp1, hp2,
      filter_ne_of_not_mem post t.id hpost_t]
    simp
  have hs2 : delete_followup_assistant_message
      (setChat s chatId
        (ChatNode.mk (getNode s chatId).docExists (getNode s chatId).chatName
          (pre ++ editedUserMessage u (pyStrip raw) now :: t :: post)
          (getNode s chatId).bookmarks))
      chatId userMessageId
      = (setChat s chatId
          (ChatNode.mk (getNode s chatId).docExists (getNode s chatId).chatName
            (pre ++ editedUserMessage u (pyStrip raw) now :: post)
            (getNode s chatId).bookmarks), true) := by
    simp only [delete_followup_assistant_message, get_chat_history_by_chat,
      getNode_setChat_same, hff, hfilter, setChat_setChat]
  have hcond : (userMessageId = "" || (pyStrip raw).isEmpty || chatId = "") = false := by
    simp [huid, hraw, hcid]
  have hfinal : edit_regenerate s chatId userMessageId raw (some reply) now freshAiId
      = (setChat s chatId
          (ChatNode.mk (getNode s chatId).docExists (getNode s chatId).chatName
            ((pre ++ editedUserMessage u (pyStrip raw) now :: post)
              ++ [(regenTutorRecord reply userMessageId).withId freshAiId])
            (getNode s chatId).bookmarks), 200) := by
    simp only [edit_regenerate, hcond, Bool.false_eq_true, if_false, hs1, hs2,
      save_chat_message_store _ _ _ _ hcid, getNode_setChat_same, setChat_setChat]
    simp [List.append_assoc]
  refine ⟨by rw [hfinal], ?_, ?_, rfl, rfl⟩
  · rw [hfinal]
    simp [get_chat_history_by_chat, getNode_setChat_same]
  · rw [hfinal, hmsgs]
    simp only [get_chat_history_by_chat, getNode_setChat_same,
      List.length_append, List.length_cons, List.length_nil]
    omega

/-- Witness for C8: editing the sample chat's user message replaces its tutor
reply and keeps the message count at 2. -/
theorem edit_regenerate_frame_witness :
    (edit_regenerate sampleStore "c1" "m1" "improved question".toList
      (some "a fresh answer".toList) "t3".toList "m3").2 = 200
    ∧ (get_chat_history_by_chat
        (edit_regenerate sampleStore "c1" "m1" "improved question".toList
          (some "a fresh answer".toList) "t3".toList "m3").1 "c1").length
      = (get_chat_history_by_chat sampleStore "c1").length := by
  have h := edit_regenerate_frame sampleStore "c1" "m1"
    "improved question".toList "a fresh answer".toList "t3".toList "m3"
    [] [] sampleUserMsg sampleTutorMsg
    (by decide) (by decide) (by decide) (by decide) (by decide) (by decide)
    (by decide) (by decide)
  exact ⟨h.1, h.2.2.1⟩

/-!
## Claim C3 — bookmark / message-flag synchronization
-/

theorem findChatWithMessage_mem_keys (L : List (String × ChatNode))
    (mid cid : String) (h : findChatWithMessage L mid = some cid) :
    cid ∈ L.map Prod.fst := by
  induction L with
  | nil => simp [findChatWithMessage] at h
  | cons p rest ih =>
    obtain ⟨k, v⟩ := p
    by_cases hany : v.messages.any (fun m => m.id = mid)
    · simp [findChatWithMessage, hany] at h
      simp [h]
    · simp only [findChatWithMessage, hany, Bool.false_eq_true, if_false] at h
      simp [ih h]

theorem get_user_chats_keys_sub (s : Store) (cid : String)
    (h : cid ∈ (get_user_chats s).map Prod.fst) : cid ∈ s.map Prod.fst := by
  rcases List.mem_map.mp h with ⟨p, hp, rfl⟩
  exact List.mem_map_of_mem _ (List.mem_of_mem_filter hp)

theorem lookupChat_isSome_of_mem (s : Store) (cid : String)
    (h : cid ∈ s.map Prod.fst) : lookupChat s cid ≠ none := by
  induction s with
  | nil => simp at h
  | cons p rest ih =>
    obtain ⟨k, v⟩ := p
    by_cases hk : k = cid
    · simp [lookupChat, hk]
    · simp only [List.map_cons, List.mem_cons] at h
      rcases h with h | h
      · exact absurd h.symm hk
      · simp [lookupChat, hk, ih h]

theorem setChat_map_fst_of_mem (s : Store) (cid : String) (node : ChatNode)
    (h : lookupChat s cid ≠ none) :
    (setChat s cid node).map Prod.fst = s.map Prod.fst := by
  induction s with
  | nil => simp [lookupChat] at h
  | cons p rest ih =>
    obtain ⟨k, v⟩ := p
    by_cases hk : k = cid
    · simp [setChat, hk]
    · simp only [lookupChat, hk, if_false] at h
      simp [setChat, hk, ih h]

theorem find?_map_preserve_id (l : List Message) (mid : String)
    (g : Message → Message) (hg : ∀ m, (g m).id = m.id) :
    (l.map (fun m => if m.id = mid then g m else m)).find?
        (fun m => m.id = mid)
      = (l.find? (fun m => m.id = mid)).map g := by
  induction l with
  | nil => rfl
  | cons a l ih =>
    by_cases ha : a.id = mid
    · simp [List.find?_cons, ha, hg]
    · simp [List.find?_cons, ha, ih]

/-- `setChat` with a node sharing `docExists` and `messages` of the old node
does not change what any cross-chat message scan sees. -/
theorem scans_setChat_preserve (s : Store) (cid : String) (node' : ChatNode)
    (mid : String)
    (hmsg : node'.messages = (getNode s cid).messages)
    (hdoc : node'.docExists = (getNode s cid).docExists) :
    lookup_message (get_user_chats (setChat s cid node')) mid
      = lookup_message (get_user_chats s) mid
    ∧ findChatWithMessage (get_user_chats (setChat s cid node')) mid
      = findChatWithMessage (get_user_chats s) mid := by
  induction s with
  | nil =>
    have : node'.docExists = false := by simp [hdoc, getNode, lookupChat, ChatNode.phantom]
    simp [setChat, get_user_chats, this, lookup_message, findChatWithMessage]
  | cons p rest ih =>
    obtain ⟨k, v⟩ := p
    by_cases hk : k = cid
    · subst hk
      have hv : getNode ((k, v) :: rest) k = v := by simp [getNode, lookupChat]
      rw [hv] at hmsg hdoc
      by_cases hvd : v.docExists
      · simp [setChat, get_user_chats, hvd, hdoc, hvd.symm ▸ hdoc,
          lookup_message, findChatWithMessage, hmsg]
      · have h' : node'.docExists = false := by
          rw [hdoc]; exact Bool.not_eq_true _ ▸ by simpa using hvd
        simp [setChat, get_user_chats, h', hvd]
    · have hg : getNode ((k, v) :: rest) cid = getNode rest cid := by
        simp [getNode, lookupChat, hk]
      rw [hg] at hmsg hdoc
      obtain ⟨ih1, ih2⟩ := ih hmsg hdoc
      by_cases hvd : v.docExists
      · simp only [setChat, hk, if_false, get_user_chats, List.filter_cons,
          hvd, lookup_message, findChatWithMessage]
        constructor
        · cases hfind : v.messages.find? (fun m => decide (m.id = mid)) with
          | some m => simp [hfind]
          | none => simpa [hfind, get_user_chats] using ih1
        · by_cases hex : v.messages.any (fun m => m.id = mid)
          · simp [hex, List.any_eq_true.mp hex]
          · have hex' : ¬∃ x ∈ v.messages, x.id = mid := by
              simpa [List.any_eq_true] using hex
            simpa [hex', get_user_chats] using ih2
      · simp only [setChat, hk, if_false, get_user_chats, List.filter_cons, hvd]
        simpa [get_user_chats] using ⟨ih1, ih2⟩

/-- After `update_message_bookmark`, the cross-chat scan sees the message
with its `bookmarked` flag set to the requested value. -/
theorem update_message_bookmark_flag (s : Store) (mid : String) (flag : Bool)
    (now : Str) (cid : String)
    (hkeys : (s.map Prod.fst).Nodup)
    (hfind : findChatWithMessage (get_user_chats s) mid = some cid) :
    message_bookmarked_flag (update_message_bookmark s mid flag now).1 mid
      = some flag := by
  induction s with
  | nil => simp [get_user_chats, findChatWithMessage] at hfind
  | cons p rest ih =>
    obtain ⟨k, v⟩ := p
    rw [List.map_cons, List.nodup_cons] at hkeys
    obtain ⟨hknotin, hkeysrest⟩ := hkeys
    by_cases hvd : v.docExists
    · by_cases hany : v.messages.any (fun m => m.id = mid)
      · have hcid : cid = k := by
          simp [get_user_chats, hvd, findChatWithMessage, hany] at hfind
          exact hfind.symm
        subst hcid
        have hupd : update_message_bookmark ((cid, v) :: rest) mid flag now
            = (((cid, ChatNode.mk v.docExists v.chatName
                  (v.messages.map (fun m => if m.id = mid
                    then { m with bookmarked := flag, updatedAt := some now }
                    else m))
                  v.bookmarks) :: rest : Store), true) := by
          simp only [update_message_bookmark, hfind]
          simp [setChat, getNode, lookupChat]
        rw [hupd]
        have hsome : (v.messages.find? (fun m => decide (m.id = mid))).isSome := by
          rw [List.find?_isSome]
          simpa [List.any_eq_true] using hany
        obtain ⟨m0, hm0⟩ := Option.isSome_iff_exists.mp hsome
        have hmap := find?_map_preserve_id v.messages mid
          (fun m => { m with bookmarked := flag, updatedAt := some now })
          (fun m => rfl)
        simp [message_bookmarked_flag, get_user_chats, hvd, lookup_message,
          hmap, hm0]
      · have hfind' : findChatWithMessage (get_user_chats rest) mid = some cid := by
          simpa [get_user_chats, hvd, findChatWithMessage, hany] using hfind
        have hkcid : k ≠ cid := by
          intro h
          subst h
          exact hknotin (get_user_chats_keys_sub rest k
            (findChatWithMessage_mem_keys _ _ _ hfind'))
        have hgetcid : getNode ((k, v) :: rest) cid = getNode rest cid := by
          simp [getNode, lookupChat, hkcid]
        have hupd : update_message_bookmark ((k, v) :: rest) mid flag now
            = ((k, v) :: (update_message_bookmark rest mid flag now).1, true) := by
          simp only [update_message_bookmark, hfind, hfind']
          rw [hgetcid]
          simp [setChat, hkcid]
        rw [hupd]
        have hnone : v.messages.find? (fun m => decide (m.id = mid)) = none := by
          rw [List.find?_eq_none]
          intro m hm hdec
          exact hany (List.any_eq_true.mpr ⟨m, hm, hdec⟩)
        have := ih hkeysrest hfind'
        simpa only [message_bookmarked_flag, get_user_chats, List.filter_cons,
          hvd, if_true, lookup_message, hnone] using this
    · have hfind' : findChatWithMessage (get_user_chats rest) mid = some cid := by
        simpa [get_user_chats, hvd, findChatWithMessage] using hfind
      have hkcid : k ≠ cid := by
        intro h
        subst h
        exact hknotin (get_user_chats_keys_sub rest k
          (findChatWithMessage_mem_keys _ _ _ hfind'))
      have hgetcid : getNode ((k, v) :: rest) cid = getNode rest cid := by
        simp [getNode, lookupChat, hkcid]
      have hupd : update_message_bookmark ((k, v) :: rest) mid flag now
          = ((k, v) :: (update_message_bookmark rest mid flag now).1, true) := by
        simp only [update_message_bookmark, hfind, hfind']
        rw [hgetcid]
        simp [setChat, hkcid]
      rw [hupd]
      have := ih hkeysrest hfind'
      simpa only [message_bookmarked_flag, get_user_chats, List.filter_cons,
        hvd] using this

theorem findChatWithBookmark_mem_keys (L : List (String × ChatNode))
    (bid cid : String) (h : findChatWithBookmark L bid = some cid) :
    cid ∈ L.map Prod.fst := by
  induction L with
  | nil => simp [findChatWithBookmark] at h
  | cons p rest ih =>
    obtain ⟨k, v⟩ := p
    by_cases hany : v.bookmarks.any (fun b => b.id = bid)
    · simp [findChatWithBookmark, hany] at h
      simp [h]
    · simp only [findChatWithBookmark, hany, Bool.false_eq_true, if_false] at h
      simp [ih h]

theorem findChatWithBookmark_isSome (L : List (String × ChatNode)) (bid : String)
    (h : (L.flatMap (fun p => p.2.bookmarks)).any (fun b => b.id = bid) = true) :
    ∃ cid, findChatWithBookmark L bid = some cid := by
  induction L with
  | nil => simp at h
  | cons p rest ih =>
    obtain ⟨k, v⟩ := p
    by_cases hb : v.bookmarks.any (fun b => b.id = bid)
    · exact ⟨k, by simp [findChatWithBookmark, hb]⟩
    · rw [List.flatMap_cons, List.any_append] at h
      rcases Bool.or_eq_true_iff.mp h with h1 | h2
      · exact absurd h1 hb
      · obtain ⟨cid, hc⟩ := ih h2
        exact ⟨cid, by simp [findChatWithBookmark, hb, hc]⟩

/-- C3 counterexample: creating a bookmark whose `chatId` names no existing
chat returns a generic 500 error, not the 404/NotFound the claim states (and
stores nothing). -/
theorem bookmark_notfound_counterexample :
    (create_bookmark sampleStore "m1" "note".toList "user" "cX" "b9" []).2 = 500
    ∧ (create_bookmark sampleStore "m1" "note".toList "user" "cX" "b9" []).2 ≠ 404
    ∧ (create_bookmark sampleStore "m1" "note".toList "user" "cX" "b9" []).1
        = sampleStore := by
  refine ⟨by decide, by decide, by decide⟩

/-- C3 (amended): creating a bookmark against an existing chat succeeds and
immediately sets the linked message's `bookmarked` flag to true; deleting the
bookmark succeeds and immediately resets the flag to false; creating against
a missing chat fails with a generic 500 response (not 404/NotFound) and
stores nothing. -/
theorem bookmark_flag_sync :
    (∀ (s : Store) (lmid : String) (snippet : Str)
       (btype chatId freshId : String) (now : Str) (mcid : String),
       (s.map Prod.fst).Nodup →
       lmid ≠ "" →
       (pyStrip snippet).isEmpty = false →
       (btype = "user" ∨ btype = "tutor") →
       chatId ≠ "" →
       chat_doc_exists s chatId = true →
       findChatWithMessage (get_user_chats s) lmid = some mcid →
       (create_bookmark s lmid snippet btype chatId freshId now).2 = 200
       ∧ message_bookmarked_flag
           (create_bookmark s lmid snippet btype chatId freshId now).1 lmid
         = some true)
    ∧ (∀ (s : Store) (bid : String) (now : Str) (b : Bookmark) (mcid : String),
       (s.map Prod.fst).Nodup →
       (get_bookmarks s).find? (fun x => x.id = bid) = some b →
       b.linkedMessageId ≠ "" →
       findChatWithMessage (get_user_chats s) b.linkedMessageId = some mcid →
       (delete_bookmark_endpoint s bid now).2 = 200
       ∧ message_bookmarked_flag (delete_bookmark_endpoint s bid now).1
           b.linkedMessageId = some false)
    ∧ (∀ (s : Store) (lmid : String) (snippet : Str)
       (btype chatId freshId : String) (now : Str),
       lmid ≠ "" →
       (pyStrip snippet).isEmpty = false →
       (btype = "user" ∨ btype = "tutor") →
       chatId ≠ "" →
       chat_doc_exists s chatId = false →
       create_bookmark s lmid snippet btype chatId freshId now = (s, 500)) := by
  refine ⟨?_, ?_, ?_⟩
  · intro s lmid snippet btype chatId freshId now mcid hkeys hl hsn hbt hcne hed hfm
    have hlook : lookupChat s chatId ≠ none := by
      intro h
      rw [chat_doc_exists, getNode, h] at hed
      simp [ChatNode.phantom] at hed
    have hbt' : ¬(btype ≠ "user" ∧ btype ≠ "tutor") := by
      rcases hbt with h | h <;> simp [h]
    have hed' : (getNode s chatId).docExists = true := hed
    have hend : create_bookmark s lmid snippet btype chatId freshId now
        = ((update_message_bookmark
            (setChat s chatId
              { getNode s chatId with bookmarks := (getNode s chatId).bookmarks
                  ++ [Bookmark.withIds
                      { id := "", linkedMessageId := lmid,
                        snippet := pyStrip snippet, btype := btype,
                        chatId := chatId } freshId chatId] })
            lmid true now).1, 200) := by
      simp [create_bookmark, hl, hsn, hcne, hbt', save_bookmark, hed']
    have hpres := scans_setChat_preserve s chatId
      { getNode s chatId with bookmarks := (getNode s chatId).bookmarks
          ++ [Bookmark.withIds
              { id := "", linkedMessageId := lmid, snippet := pyStrip snippet,
                btype := btype, chatId := chatId } freshId chatId] }
      lmid rfl rfl
    have hfm' := hpres.2.trans hfm
    have hkeys' : (((setChat s chatId
        { getNode s chatId with bookmarks := (getNode s chatId).bookmarks
            ++ [Bookmark.withIds
                { id := "", linkedMessageId := lmid, snippet := pyStrip snippet,
                  btype := btype, chatId := chatId } freshId chatId] })).map
        Prod.fst).Nodup := by
      rw [setChat_map_fst_of_mem _ _ _ hlook]
      exact hkeys
    exact ⟨by rw [hend],
      by rw [hend]; exact update_message_bookmark_flag _ _ _ _ mcid hkeys' hfm'⟩
  · intro s bid now b mcid hkeys htd hlm hfm
    have hmem : b ∈ get_bookmarks s := List.mem_of_find?_eq_some htd
    have hpb : b.id = bid := by
      have := List.find?_some htd
      simpa using this
    have hanyb : ((get_user_chats s).flatMap (fun p => p.2.bookmarks)).any
        (fun x => x.id = bid) = true := by
      rw [get_bookmarks] at hmem
      exact List.any_eq_true.mpr ⟨b, hmem, by simp [hpb]⟩
    obtain ⟨bcid, hfb⟩ := findChatWithBookmark_isSome _ _ hanyb
    have hdel : delete_bookmark s bid none = (removeBookmark s bcid bid, true) := by
      simp [delete_bookmark, hfb]
    have hbcidmem : bcid ∈ s.map Prod.fst :=
      get_user_chats_keys_sub s bcid (findChatWithBookmark_mem_keys _ _ _ hfb)
    have hlook := lookupChat_isSome_of_mem s bcid hbcidmem
    have hrb : removeBookmark s bcid bid
        = setChat s bcid
            { getNode s bcid with bookmarks :=
                (getNode s bcid).bookmarks.filter (fun x => x.id ≠ bid) } := rfl
    have hpres := scans_setChat_preserve s bcid
      { getNode s bcid with bookmarks :=
          (getNode s bcid).bookmarks.filter (fun x => x.id ≠ bid) }
      b.linkedMessageId rfl rfl
    have hfm' : findChatWithMessage (get_user_chats (removeBookmark s bcid bid))
        b.linkedMessageId = some mcid := by
      rw [hrb]
      exact hpres.2.trans hfm
    have hkeys' : ((removeBookmark s bcid bid).map Prod.fst).Nodup := by
      rw [hrb, setChat_map_fst_of_mem _ _ _ hlook]
      exact hkeys
    have hend : delete_bookmark_endpoint s bid now
        = ((update_message_bookmark (removeBookmark s bcid bid)
            b.linkedMessageId false now).1, 200) := by
      simp [delete_bookmark_endpoint, htd, hdel, hlm]
    exact ⟨by rw [hend],
      by rw [hend]; exact update_message_bookmark_flag _ _ _ _ mcid hkeys' hfm'⟩
  · intro s lmid snippet btype chatId freshId now hl hsn hbt hcne hnex
    have hbt' : ¬(btype ≠ "user" ∧ btype ≠ "tutor") := by
      rcases hbt with h | h <;> simp [h]
    have hnex' : (getNode s chatId).docExists = false := hnex
    simp [create_bookmark, hl, hsn, hcne, hbt', save_bookmark, hnex']

/-- Witness for C3 (amended): bookmarking the sample user message flips its
flag on; deleting the sample bookmark flips its linked message's flag off. -/
theorem bookmark_flag_sync_witness :
    ((create_bookmark sampleStore "m1" "key point".toList "user" "c1" "b7" []).2 = 200
      ∧ message_bookmarked_flag
          (create_bookmark sampleStore "m1" "key point".toList "user" "c1" "b7" []).1
          "m1" = some true)
    ∧ ((delete_bookmark_endpoint sampleStore "b1" []).2 = 200
      ∧ message_bookmarked_flag (delete_bookmark_endpoint sampleStore "b1" []).1
          "m2" = some false) := by
  constructor
  · exact bookmark_flag_sync.1 sampleStore "m1" "key point".toList "user" "c1"
      "b7" [] "c1" (by decide) (by decide) (by decide) (Or.inl rfl) (by decide)
      (by decide) (by decide)
  · exact bookmark_flag_sync.2.1 sampleStore "b1" [] sampleBookmark "c1"
      (by decide) (by decide) (by decide) (by decide)
